import Mathlib

/-!
Verification of the sqlx abstraction-layer excerpt: the batch-insert
placeholder synthesizer (`build_batch_insert` in examples/realworld/src/db/mod.rs),
the `Db`/`DbPool` connection-acquisition seam (same file), the `Cursor`
streaming protocol (sqlx-core/src/cursor.rs together with the specified state
machine), and the API utility layer (examples/realworld/src/api/util.rs).
Rust strings are embedded as Lean `String`, `usize`/`i32` as `Nat`/`Int`, and
fallible operations as `Except`/`Option`.
-/

/- ## Batch-insert synthesizer (examples/realworld/src/db/mod.rs, build_batch_insert) -/

/-- Fuel-driven helper for decimal rendering; the fuel only bounds the
recursion depth and is irrelevant once it exceeds the argument. -/
def natToDigitsAux : Nat → Nat → List Char
  | 0, _ => []
  | fuel + 1, n =>
    if n < 10 then
      [Nat.digitChar n]
    else
      natToDigitsAux fuel (n / 10) ++ [Nat.digitChar (n % 10)]

/-- Decimal rendering of a natural number, the embedding of Rust's
`format!("{}", n)` display for `usize`: most significant digit first. -/
def natToDigits (n : Nat) : List Char :=
  natToDigitsAux (n + 1) n

/-- The fuel is irrelevant as soon as it exceeds the argument. -/
theorem natToDigitsAux_fuel (f₁ f₂ n : Nat) (h₁ : n < f₁) (h₂ : n < f₂) :
    natToDigitsAux f₁ n = natToDigitsAux f₂ n := by
  induction n using Nat.strong_induction_on generalizing f₁ f₂ with
  | _ n ih =>
    match f₁, f₂ with
    | f₁ + 1, f₂ + 1 =>
      simp only [natToDigitsAux]
      split
      · rfl
      · have hlt : n / 10 < n := Nat.div_lt_self (by omega) (by omega)
        rw [ih (n / 10) hlt f₁ f₂ (by omega) (by omega)]

/-- Unfolding equation for `natToDigits`. -/
theorem natToDigits_eq (n : Nat) :
    natToDigits n =
      if n < 10 then [Nat.digitChar n]
      else natToDigits (n / 10) ++ [Nat.digitChar (n % 10)] := by
  show natToDigitsAux (n + 1) n = _
  simp only [natToDigitsAux]
  split
  · rfl
  · have hlt : n / 10 < n := Nat.div_lt_self (by omega) (by omega)
    rw [natToDigitsAux_fuel n (n / 10 + 1) (n / 10) (by omega) (by omega)]
    rfl

/-- Decimal rendering as a string. -/
def numStr (n : Nat) : String :=
  String.mk (natToDigits n)

/-- Embedding of itertools `format_with(",", ...)`: join the rendered pieces
with a single comma between consecutive pieces. -/
def joinComma : List String → String
  | [] => ""
  | [s] => s
  | s :: t :: rest => s ++ "," ++ joinComma (t :: rest)

/-- Embedding of `build_batch_insert(rows, columns)` from
examples/realworld/src/db/mod.rs: the outer iterator runs `i` over `0..rows`,
the inner iterator runs `j` over `1..=columns`, each placeholder is rendered as
`$` followed by the decimal of `j + i * columns`, placeholders are joined by
commas inside a parenthesized group, and groups are joined by commas. -/
def buildBatchInsert (rows columns : Nat) : String :=
  joinComma ((List.range rows).map (fun i =>
    "(" ++ joinComma ((List.range' 1 columns).map
      (fun j => "$" ++ numStr (j + i * columns))) ++ ")"))

/-- Clause built following the specification's words: `rows` comma-separated
parenthesized groups, group `i` (0-based) listing the `columns` placeholders
numbered `i*columns + 1` through `(i+1)*columns` in increasing order, each
written as a dollar sign followed by its number. -/
def placeholderClauseSpec (rows columns : Nat) : String :=
  joinComma ((List.range rows).map (fun i =>
    "(" ++ joinComma ((List.range columns).map
      (fun t => "$" ++ numStr (i * columns + (t + 1)))) ++ ")"))

/-- C1: for every `rows ≥ 0` and `columns ≥ 1`, `build_batch_insert` produces
exactly the clause described by the spec (rows groups, group i listing
placeholders i*columns+1 .. (i+1)*columns), and in particular
`build_batch_insert 2 3 = "($1,$2,$3),($4,$5,$6)"`. -/
theorem buildBatchInsert_matches_spec (rows columns : Nat) (h : 1 ≤ columns) :
    buildBatchInsert rows columns = placeholderClauseSpec rows columns ∧
    buildBatchInsert 2 3 = "($1,$2,$3),($4,$5,$6)" := by
  refine ⟨?_, by decide⟩
  unfold buildBatchInsert placeholderClauseSpec
  congr 1
  apply List.map_congr_left
  intro i _
  have hmap : (List.range' 1 columns).map (fun j => "$" ++ numStr (j + i * columns))
      = (List.range columns).map (fun t => "$" ++ numStr (i * columns + (t + 1))) := by
    rw [List.range'_eq_map_range, List.map_map]
    apply List.map_congr_left
    intro t _
    simp only [Function.comp_apply]
    exact congrArg (fun m => "$" ++ numStr m) (by omega)
  rw [hmap]

/-- Witness for C1 at rows = 2, columns = 3. -/
theorem buildBatchInsert_matches_spec_witness :
    1 ≤ 3 ∧ (buildBatchInsert 2 3 = placeholderClauseSpec 2 3 ∧
      buildBatchInsert 2 3 = "($1,$2,$3),($4,$5,$6)") :=
  ⟨by decide, buildBatchInsert_matches_spec 2 3 (by decide)⟩

/-- C3: for every `columns ≥ 1`, `build_batch_insert 0 columns` is the empty
string. -/
theorem buildBatchInsert_zero_rows (columns : Nat) (h : 1 ≤ columns) :
    buildBatchInsert 0 columns = "" := rfl

/-- Witness for C3 at columns = 1. -/
theorem buildBatchInsert_zero_rows_witness :
    1 ≤ 1 ∧ buildBatchInsert 0 1 = "" :=
  ⟨by decide, buildBatchInsert_zero_rows 1 (by decide)⟩

/- ## Extraction of placeholder markers from the produced clause -/

/-- Value of a digit run, most significant digit first. -/
def digitsToNat (ds : List Char) : Nat :=
  ds.foldl (fun acc c => acc * 10 + (c.toNat - 48)) 0

/-- Scan a character list and collect, in order, the numeric value of every
maximal digit run that immediately follows a dollar sign. -/
def extractAux : List Char → List Nat
  | [] => []
  | c :: rest =>
    if c = '$' then
      digitsToNat (rest.takeWhile Char.isDigit) ::
        extractAux (rest.dropWhile Char.isDigit)
    else
      extractAux rest
termination_by l => l.length
decreasing_by
  · exact Nat.lt_succ_of_le (List.Sublist.length_le (List.dropWhile_sublist _))
  · exact Nat.lt_succ_self _

/-- The list of placeholder numbers appearing in a SQL string, left to
right. -/
def extractPlaceholders (s : String) : List Nat :=
  extractAux s.data

/-- A character list that does not start with a decimal digit. -/
abbrev headNotDigit : List Char → Prop :=
  fun l => match l with
  | [] => True
  | c :: _ => c.isDigit = false

theorem digitsToNat_append_singleton (xs : List Char) (c : Char) :
    digitsToNat (xs ++ [c]) = digitsToNat xs * 10 + (c.toNat - 48) := by
  simp [digitsToNat, List.foldl_append]

theorem digitChar_toNat : ∀ m, m < 10 → (Nat.digitChar m).toNat = m + 48 := by
  decide

theorem digitChar_isDigit : ∀ m, m < 10 → (Nat.digitChar m).isDigit = true := by
  decide

theorem natToDigits_roundtrip (n : Nat) : digitsToNat (natToDigits n) = n := by
  induction n using Nat.strong_induction_on with
  | _ n ih =>
    rw [natToDigits_eq]
    split
    · rename_i h
      simp only [digitsToNat, List.foldl]
      rw [digitChar_toNat n h]
      omega
    · rename_i h
      rw [digitsToNat_append_singleton,
        ih (n / 10) (Nat.div_lt_self (by omega) (by omega)),
        digitChar_toNat (n % 10) (by omega)]
      omega

theorem natToDigits_digits (n : Nat) : ∀ c ∈ natToDigits n, c.isDigit = true := by
  induction n using Nat.strong_induction_on with
  | _ n ih =>
    rw [natToDigits_eq]
    split
    · rename_i h
      intro c hc
      rw [List.mem_singleton] at hc
      subst hc
      exact digitChar_isDigit n h
    · rename_i h
      intro c hc
      rw [List.mem_append] at hc
      rcases hc with hc | hc
      · exact ih (n / 10) (Nat.div_lt_self (by omega) (by omega)) c hc
      · rw [List.mem_singleton] at hc
        subst hc
        exact digitChar_isDigit (n % 10) (by omega)

theorem takeWhile_digits_append (a b : List Char) (hb : headNotDigit b) :
    (a ++ b).takeWhile Char.isDigit = a.takeWhile Char.isDigit := by
  induction a with
  | nil =>
    simp only [List.nil_append, List.takeWhile_nil]
    cases b with
    | nil => rfl
    | cons c t =>
      simp only [headNotDigit] at hb
      simp [List.takeWhile_cons, hb]
  | cons c t ih =>
    by_cases hc : Char.isDigit c
    · simp [List.takeWhile_cons, hc, ih]
    · simp [List.takeWhile_cons, hc]

theorem dropWhile_digits_append (a b : List Char) (hb : headNotDigit b) :
    (a ++ b).dropWhile Char.isDigit = a.dropWhile Char.isDigit ++ b := by
  induction a with
  | nil =>
    simp only [List.nil_append, List.dropWhile_nil]
    cases b with
    | nil => rfl
    | cons c t =>
      simp only [headNotDigit] at hb
      simp [List.dropWhile_cons, hb]
  | cons c t ih =>
    by_cases hc : Char.isDigit c
    · simp [List.dropWhile_cons, hc, ih]
    · simp [List.dropWhile_cons, hc]

theorem extractAux_skip (c : Char) (l : List Char) (h : ¬c = '$') :
    extractAux (c :: l) = extractAux l := by
  simp [extractAux, h]

theorem extractAux_dollar (n : Nat) (rest : List Char) (h : headNotDigit rest) :
    extractAux ('$' :: (natToDigits n ++ rest)) = n :: extractAux rest := by
  have htw : (natToDigits n ++ rest).takeWhile Char.isDigit = natToDigits n := by
    rw [takeWhile_digits_append _ _ h]
    exact List.takeWhile_eq_self_iff.mpr (natToDigits_digits n)
  have hdw : (natToDigits n ++ rest).dropWhile Char.isDigit = rest := by
    rw [dropWhile_digits_append _ _ h,
      List.dropWhile_eq_nil_iff.mpr (natToDigits_digits n), List.nil_append]
  simp [extractAux, htw, hdw, natToDigits_roundtrip]

theorem data_numStr (n : Nat) : (numStr n).data = natToDigits n := rfl

theorem data_dollar_num (n : Nat) :
    ("$" ++ numStr n).data = '$' :: natToDigits n := by
  rw [String.data_append]
  rfl

theorem extract_phList (ns : List Nat) (rest : List Char) (h : headNotDigit rest) :
    extractAux ((joinComma (ns.map (fun x => "$" ++ numStr x))).data ++ rest)
      = ns ++ extractAux rest := by
  induction ns with
  | nil => simp [joinComma]
  | cons n t ih =>
    cases t with
    | nil =>
      have hdata : (joinComma ([n].map (fun x => "$" ++ numStr x))).data ++ rest
          = '$' :: (natToDigits n ++ rest) := by
        simp [joinComma, data_dollar_num, data_numStr]
      rw [hdata, extractAux_dollar n rest h]
      rfl
    | cons m r =>
      have hJ : joinComma ((n :: m :: r).map (fun x => "$" ++ numStr x))
          = ("$" ++ numStr n) ++ "," ++
            joinComma ((m :: r).map (fun x => "$" ++ numStr x)) := by
        simp [joinComma]
      have hdata : (("$" ++ numStr n) ++ "," ++
            joinComma ((m :: r).map (fun x => "$" ++ numStr x))).data ++ rest
          = '$' :: (natToDigits n ++ (',' ::
            ((joinComma ((m :: r).map (fun x => "$" ++ numStr x))).data ++ rest))) := by
        rw [String.data_append, String.data_append, data_dollar_num]
        simp
      rw [hJ, hdata, extractAux_dollar n _ (by simp [headNotDigit]),
        extractAux_skip ',' _ (by decide), ih]
      rfl

theorem extract_group (ns : List Nat) (rest : List Char) (h : headNotDigit rest) :
    extractAux (("(" ++ joinComma (ns.map (fun x => "$" ++ numStr x)) ++ ")").data
        ++ rest)
      = ns ++ extractAux rest := by
  have hdata : ("(" ++ joinComma (ns.map (fun x => "$" ++ numStr x)) ++ ")").data
        ++ rest
      = '(' :: ((joinComma (ns.map (fun x => "$" ++ numStr x))).data
        ++ (')' :: rest)) := by
    rw [String.data_append, String.data_append]
    simp
  rw [hdata, extractAux_skip '(' _ (by decide),
    extract_phList ns (')' :: rest) (by simp [headNotDigit]),
    extractAux_skip ')' _ (by decide)]

theorem extract_groups (gs : List (List Nat)) (rest : List Char)
    (h : headNotDigit rest) :
    extractAux ((joinComma (gs.map (fun ns =>
        "(" ++ joinComma (ns.map (fun x => "$" ++ numStr x)) ++ ")"))).data ++ rest)
      = gs.flatten ++ extractAux rest := by
  induction gs with
  | nil => simp [joinComma]
  | cons g t ih =>
    cases t with
    | nil =>
      simpa [joinComma] using extract_group g rest h
    | cons g2 r =>
      have hJ : joinComma ((g :: g2 :: r).map (fun ns =>
            "(" ++ joinComma (ns.map (fun x => "$" ++ numStr x)) ++ ")"))
          = ("(" ++ joinComma (g.map (fun x => "$" ++ numStr x)) ++ ")") ++ "," ++
            joinComma ((g2 :: r).map (fun ns =>
              "(" ++ joinComma (ns.map (fun x => "$" ++ numStr x)) ++ ")")) := by
        simp [joinComma]
      have hdata : (("(" ++ joinComma (g.map (fun x => "$" ++ numStr x)) ++ ")")
            ++ "," ++ joinComma ((g2 :: r).map (fun ns =>
              "(" ++ joinComma (ns.map (fun x => "$" ++ numStr x)) ++ ")"))).data
            ++ rest
          = ("(" ++ joinComma (g.map (fun x => "$" ++ numStr x)) ++ ")").data
            ++ (',' :: ((joinComma ((g2 :: r).map (fun ns =>
              "(" ++ joinComma (ns.map (fun x => "$" ++ numStr x)) ++ ")"))).data
              ++ rest)) := by
        rw [String.data_append, String.data_append]
        simp
      rw [hJ, hdata, extract_group g _ (by simp [headNotDigit]),
        extractAux_skip ',' _ (by decide), ih]
      simp

theorem flatten_groups (rows cols : Nat) :
    ((List.range rows).map (fun i => List.range' (i * cols + 1) cols)).flatten
      = List.range' 1 (rows * cols) := by
  induction rows with
  | zero => simp
  | succ r ih =>
    rw [List.range_succ, List.map_append, List.flatten_append, ih]
    simp only [List.map_cons, List.map_nil, List.flatten_cons, List.flatten_nil,
      List.append_nil]
    have happ := List.range'_append 1 (r * cols) cols 1
    have h1 : 1 + 1 * (r * cols) = r * cols + 1 := by ring
    have h2 : cols + r * cols = (r + 1) * cols := by ring
    rw [h1, h2] at happ
    exact happ

theorem extract_main (rows cols : Nat) :
    extractPlaceholders (buildBatchInsert rows cols)
      = List.range' 1 (rows * cols) := by
  have houter : (List.range rows).map (fun i =>
        "(" ++ joinComma ((List.range' 1 cols).map
          (fun j => "$" ++ numStr (j + i * cols))) ++ ")")
      = ((List.range rows).map (fun i => List.range' (i * cols + 1) cols)).map
          (fun ns => "(" ++ joinComma (ns.map (fun x => "$" ++ numStr x)) ++ ")") := by
    rw [List.map_map]
    apply List.map_congr_left
    intro i _
    simp only [Function.comp_apply]
    have hmap : (List.range' 1 cols).map (fun j => "$" ++ numStr (j + i * cols))
        = (List.range' (i * cols + 1) cols).map (fun x => "$" ++ numStr x) := by
      rw [List.range'_eq_map_range, List.range'_eq_map_range, List.map_map,
        List.map_map]
      apply List.map_congr_left
      intro x _
      simp only [Function.comp_apply]
      exact congrArg (fun m => "$" ++ numStr m) (by omega)
    rw [hmap]
  unfold extractPlaceholders buildBatchInsert
  rw [houter]
  have hmain := extract_groups
    ((List.range rows).map (fun i => List.range' (i * cols + 1) cols)) []
    (by trivial)
  simp only [List.append_nil] at hmain
  rw [hmain]
  simp only [extractAux, List.append_nil]
  exact flatten_groups rows cols

/-- C2: for every `rows ≥ 0` and `columns ≥ 1`, the output of
`build_batch_insert` contains exactly `rows * columns` placeholder markers and,
read left to right, their numbers are exactly 1, 2, ..., rows*columns
(strictly increasing, 1-based, no gaps, no repeats). -/
theorem buildBatchInsert_placeholder_numbers (rows cols : Nat) (h : 1 ≤ cols) :
    extractPlaceholders (buildBatchInsert rows cols)
        = List.range' 1 (rows * cols) ∧
    (extractPlaceholders (buildBatchInsert rows cols)).length = rows * cols := by
  refine ⟨extract_main rows cols, ?_⟩
  rw [extract_main rows cols, List.length_range']

/-- Witness for C2 at rows = 2, columns = 3. -/
theorem buildBatchInsert_placeholder_numbers_witness :
    1 ≤ 3 ∧ (extractPlaceholders (buildBatchInsert 2 3) = List.range' 1 6 ∧
      (extractPlaceholders (buildBatchInsert 2 3)).length = 6) :=
  ⟨by decide, buildBatchInsert_placeholder_numbers 2 3 (by decide)⟩

/-- C9: for the unspecified input `columns = 0`, `build_batch_insert` does not
reject or fail: for every `rows ≥ 0` it returns `rows` copies of the empty
group `()` joined by commas (empty string for `rows = 0`), and the output
contains zero placeholder markers. -/
theorem buildBatchInsert_zero_columns (rows : Nat) :
    buildBatchInsert rows 0 = joinComma (List.replicate rows "()") ∧
    extractPlaceholders (buildBatchInsert rows 0) = [] := by
  constructor
  · unfold buildBatchInsert
    congr 1
    have hconst : (List.range rows).map (fun i =>
        "(" ++ joinComma ((List.range' 1 0).map
          (fun j => "$" ++ numStr (j + i * 0))) ++ ")")
        = (List.range rows).map (fun _ => "()") := by
      apply List.map_congr_left
      intro i _
      rfl
    rw [hconst, List.map_const', List.length_range]
  · have h0 := extract_main rows 0
    simpa [Nat.mul_zero, List.range'_zero] using h0

/- ## Connection acquisition and the Cursor protocol
(sqlx-core/src/cursor.rs and examples/realworld/src/db/mod.rs) -/

/-- Acquisition failure, spec taxonomy item `ConnectionError` (§7). -/
structure ConnectionError where
  msg : String

/-- Streaming failure after successful acquisition, spec taxonomy item
`TransportError` (§7); it also stands for a decode failure, which is likewise
fatal for the current advance. -/
structure TransportError where
  msg : String

/-- One decoded result tuple, opaque to this layer. -/
structure Row where
  cells : List String

/-- Observable pool state: the number of available (idle) connections.
Connections are identified by numbers. -/
structure PoolState where
  available : Nat

/-- Modelled from the spec: the consumed pool interface
`acquire() -> Result<Connection, ConnectionError>` (§6). The pool internals
are out of scope ("the internal implementation of the pool itself" §1), so
acquisition is modelled observably: it checks out one available connection,
decreasing the available-count by one, and fails with a `ConnectionError`
when no session can be established. -/
def PoolState.acquire (p : PoolState) : Except ConnectionError (Nat × PoolState) :=
  if p.available = 0 then
    Except.error { msg := "failed to establish session" }
  else
    Except.ok (p.available, { available := p.available - 1 })

/-- Embedding of `impl Db for sqlx::Pool` (examples/realworld/src/db/mod.rs
lines 44-51): `conn()` is exactly `self.acquire().await`. -/
def dbConn (p : PoolState) : Except ConnectionError (Nat × PoolState) :=
  p.acquire

/-- Embedding of `impl DbPool for sqlx::Pool` (examples/realworld/src/db/mod.rs
lines 35-42): `conn()` is exactly `self.acquire().await`. -/
def dbPoolConn (p : PoolState) : Except ConnectionError (Nat × PoolState) :=
  p.acquire

/-- C6: both exposed `conn()` operations return exactly the result of
`acquire()` on the same pool (same connection on success, same
`ConnectionError` on failure), so the two interfaces agree with each other and
refine `acquire()`. -/
theorem conn_refines_acquire (p : PoolState) :
    dbConn p = PoolState.acquire p ∧ dbPoolConn p = PoolState.acquire p ∧
    dbConn p = dbPoolConn p :=
  ⟨rfl, rfl, rfl⟩

/-- Modelled from the spec: the cursor state machine of §4.3. The excerpt's
sqlx-core/src/cursor.rs declares only the `Cursor` trait (`from_pool`,
`from_connection`, `next`), so the state machine is taken from the
specification: a streaming phase holding the pending backend result stream, a
terminal `exhausted` phase, and a terminal `failed` phase entered when a
transport/decode failure has been surfaced. -/
inductive CursorPhase where
  | streaming (pending : List (Except TransportError Row))
  | exhausted
  | failed

/-- Modelled from the spec: one `next()` advance (§4.3). It returns a typed
result, either a `TransportError` or an optional `Row`, together with the
updated cursor phase and the pool state; advancing pulls from the stream and
never touches the pool. An empty stream reports no row and moves to
`exhausted`; a stream error is returned to the caller and moves to `failed`;
past exhaustion or failure no further row is ever produced. -/
def cursorNext :
    CursorPhase × PoolState →
      Except TransportError (Option Row) × CursorPhase × PoolState
  | (CursorPhase.streaming [], p) =>
      (Except.ok none, CursorPhase.exhausted, p)
  | (CursorPhase.streaming (Except.ok r :: rest), p) =>
      (Except.ok (some r), CursorPhase.streaming rest, p)
  | (CursorPhase.streaming (Except.error e :: _), p) =>
      (Except.error e, CursorPhase.failed, p)
  | (CursorPhase.exhausted, p) =>
      (Except.ok none, CursorPhase.exhausted, p)
  | (CursorPhase.failed, p) =>
      (Except.ok none, CursorPhase.failed, p)

/-- Modelled from the spec: from-pool construction (§4.3) performs Connection
Acquisition and thereafter owns the acquired connection; the pool
available-count drops by one. -/
def cursorFromPool (pending : List (Except TransportError Row)) (p : PoolState) :
    Except ConnectionError ((Nat × CursorPhase) × PoolState) :=
  match p.acquire with
  | Except.error e => Except.error e
  | Except.ok (conn, p2) =>
      Except.ok ((conn, CursorPhase.streaming pending), p2)

/-- Modelled from the spec: from-connection construction (§4.3) is given a
borrowed, already-owned connection and performs no acquisition of its own. -/
def cursorFromConnection (conn : Nat)
    (pending : List (Except TransportError Row)) (p : PoolState) :
    (Nat × CursorPhase) × PoolState :=
  ((conn, CursorPhase.streaming pending), p)

/-- C4: once an advance has reported exhaustion (no row), every further
advance reports no row again, leaves the cursor state unchanged and leaves the
pool state unchanged (no re-acquisition): the exhausted outcome is a terminal,
idempotent no-op. -/
theorem cursor_exhausted_terminal (c : CursorPhase) (p : PoolState)
    (c' : CursorPhase) (p' : PoolState)
    (h : cursorNext (c, p) = (Except.ok none, c', p')) :
    cursorNext (c', p') = (Except.ok none, c', p') ∧ p' = p := by
  cases c with
  | streaming pending =>
    cases pending with
    | nil =>
      simp only [cursorNext, Prod.mk.injEq] at h
      obtain ⟨hc, hp⟩ := h.2
      subst hc
      subst hp
      exact ⟨rfl, rfl⟩
    | cons x rest =>
      cases x with
      | ok r => simp [cursorNext] at h
      | error e => simp [cursorNext] at h
  | exhausted =>
    simp only [cursorNext, Prod.mk.injEq] at h
    obtain ⟨hc, hp⟩ := h.2
    subst hc
    subst hp
    exact ⟨rfl, rfl⟩
  | failed =>
    simp only [cursorNext, Prod.mk.injEq] at h
    obtain ⟨hc, hp⟩ := h.2
    subst hc
    subst hp
    exact ⟨rfl, rfl⟩

/-- Witness for C4: a cursor advanced to exhaustion on a pool with five
available connections stays exhausted and the pool is untouched. -/
theorem cursor_exhausted_terminal_witness :
    cursorNext (CursorPhase.exhausted, PoolState.mk 5)
        = (Except.ok none, CursorPhase.exhausted, PoolState.mk 5) ∧
      PoolState.mk 5 = PoolState.mk 5 :=
  cursor_exhausted_terminal (CursorPhase.streaming []) (PoolState.mk 5)
    CursorPhase.exhausted (PoolState.mk 5) rfl

/-- C7: from-connection construction changes nothing about the pool: the
available-connection count after constructing the cursor is exactly what it
was before, and the connection handed in is the one the cursor borrows. -/
theorem cursorFromConnection_preserves_pool (conn : Nat)
    (pending : List (Except TransportError Row)) (p : PoolState) :
    (cursorFromConnection conn pending p).2 = p ∧
    (cursorFromConnection conn pending p).2.available = p.available ∧
    (cursorFromConnection conn pending p).1.1 = conn :=
  ⟨rfl, rfl, rfl⟩

/-- Within `n` further advances from a given cursor-and-pool state, is a row
ever produced? -/
def yieldsRowWithin : Nat → CursorPhase × PoolState → Bool
  | 0, _ => false
  | n + 1, s =>
    match cursorNext s with
    | (Except.ok (some _), _, _) => true
    | (_, c', p') => yieldsRowWithin n (c', p')

/-- A failed cursor never yields a row, however often it is advanced. -/
theorem failed_no_rows (n : Nat) (p : PoolState) :
    yieldsRowWithin n (CursorPhase.failed, p) = false := by
  induction n generalizing p with
  | zero => rfl
  | succ n ih => simpa [yieldsRowWithin, cursorNext] using ih p

/-- C8: an advance is typed as either a `TransportError` or an optional row;
when the head of the stream is a transport failure, that advance returns
exactly the typed failure (not swallowed, not retried), and from the resulting
state no number of further advances ever produces a row. -/
theorem cursor_error_surfaces (e : TransportError)
    (rest : List (Except TransportError Row)) (p : PoolState) :
    (cursorNext (CursorPhase.streaming (Except.error e :: rest), p)).1
        = Except.error e ∧
    ∀ n, yieldsRowWithin n
        ((cursorNext (CursorPhase.streaming (Except.error e :: rest), p)).2)
        = false := by
  refine ⟨rfl, fun n => ?_⟩
  show yieldsRowWithin n (CursorPhase.failed, p) = false
  exact failed_no_rows n p

/- ## API utility layer (examples/realworld/src/api/util.rs) -/

/-- Error type returned by the persistence provider. Its variants are exactly
the ones matched exhaustively by `impl From<ProvideError> for Response` in
api/util.rs (the enum itself is declared in db/model.rs): `NotFound`,
`Provider` carrying an underlying provider error rendered to a string,
`UniqueViolation` and `ModelViolation` carrying detail strings. -/
inductive ProvideError where
  | notFound
  | provider (msg : String)
  | uniqueViolation (details : String)
  | modelViolation (details : String)

/-- A tide response as observed by this layer: an HTTP status code and a body
string (the out-of-scope JSON envelope is elided, §1). -/
structure Response where
  status : Nat
  body : String

/-- Embedding of `Response::new(status)`: the body starts out empty. -/
def Response.new (status : Nat) : Response :=
  { status := status, body := "" }

/-- Embedding of `impl From<ProvideError> for Response` (api/util.rs lines
120-143): start from `Response::new(500)`, then `NotFound` sets status 404
(NotFound), `Provider(e)` sets status 500 (InternalServerError) and body
`e.to_string()`, `UniqueViolation(details)` sets status 409 (Conflict) and the
details as body, `ModelViolation(details)` sets status 400 (BadRequest) and
the details as body. -/
def provideErrorResponse (e : ProvideError) : Response :=
  let resp := Response.new 500
  match e with
  | ProvideError.notFound => { resp with status := 404 }
  | ProvideError.provider msg => { resp with status := 500, body := msg }
  | ProvideError.uniqueViolation details =>
      { resp with status := 409, body := details }
  | ProvideError.modelViolation details =>
      { resp with status := 400, body := details }

/-- Two provider errors built from the same constructor. -/
def sameVariant : ProvideError → ProvideError → Prop
  | ProvideError.notFound, ProvideError.notFound => True
  | ProvideError.provider _, ProvideError.provider _ => True
  | ProvideError.uniqueViolation _, ProvideError.uniqueViolation _ => True
  | ProvideError.modelViolation _, ProvideError.modelViolation _ => True
  | _, _ => False

/-- C5: the error mapping sends `NotFound` to 404, `UniqueViolation` to 409,
`ModelViolation` to 400, and a provider/transport failure to 500, and two
`ProvideError` values mapped to the same status always come from the same
variant: distinct semantic outcomes never collapse to one caller-visible
outcome. -/
theorem provideError_status_mapping (msg details : String) :
    (provideErrorResponse ProvideError.notFound).status = 404 ∧
    (provideErrorResponse (ProvideError.uniqueViolation details)).status = 409 ∧
    (provideErrorResponse (ProvideError.modelViolation details)).status = 400 ∧
    (provideErrorResponse (ProvideError.provider msg)).status = 500 ∧
    ∀ e₁ e₂ : ProvideError,
      (provideErrorResponse e₁).status = (provideErrorResponse e₂).status →
        sameVariant e₁ e₂ := by
  refine ⟨rfl, rfl, rfl, rfl, ?_⟩
  intro e₁ e₂ h
  cases e₁ <;> cases e₂ <;>
    simp_all [provideErrorResponse, Response.new, sameVariant]

/-- Witness for C5 at concrete message strings. -/
theorem provideError_status_mapping_witness :
    (provideErrorResponse ProvideError.notFound).status = 404 :=
  (provideError_status_mapping "boom" "details").1

/-- A request as observed by this layer: only the Authorization header
matters; `header("Authorization")` yields its (last) value when the header is
present. -/
structure Request where
  authorization : Option String

/-- Embedding of `get_auth_header`: the Authorization header value, if any. -/
def getAuthHeader (req : Request) : Option String :=
  req.authorization

/-- Embedding of `parse_token`: `splitn(2, ' ').nth(1).unwrap_or_default()`,
that is, everything after the first space, or the empty string when the header
contains no space. -/
def parseToken (header : String) : String :=
  String.mk ((header.data.dropWhile (fun c => c != ' ')).tail)

/-- Embedding of `err_response(status, message)` with the out-of-scope JSON
error envelope elided: the message becomes the body. -/
def errResponse (status : Nat) (message : String) : Response :=
  { status := status, body := message }

/-- Embedding of `extract_and_validate_token` (api/util.rs lines 54-70),
parameterized by `authorize`, the JWT validation of `authorize_token`
(jsonwebtoken::decode, out of scope): a missing header yields a 400
BadRequest error response, a token rejected by `authorize` yields a 403
Forbidden error response carrying the error text, and a valid token yields
the authenticated user id together with the token. -/
def extractAndValidateToken (authorize : String → Except String Int)
    (req : Request) : Except Response (Int × String) :=
  match getAuthHeader req with
  | none => Except.error (errResponse 400 "Missing Authorization header")
  | some h =>
    let token := parseToken h
    match authorize token with
    | Except.error e => Except.error (errResponse 403 e)
    | Except.ok userId => Except.ok (userId, token)

/-- Embedding of `optionally_auth` (api/util.rs lines 45-51): when an
Authorization header is present, the full validation result; otherwise
nothing. -/
def optionallyAuth (authorize : String → Except String Int) (req : Request) :
    Option (Except Response (Int × String)) :=
  if (getAuthHeader req).isSome then
    some (extractAndValidateToken authorize req)
  else
    none

/-- C10: `optionally_auth` returns nothing exactly when the request carries no
Authorization header, and whenever the header is present it returns exactly
the result of `extract_and_validate_token` on the same request; an absent
header is never turned into an authentication failure. -/
theorem optionallyAuth_none_iff (authorize : String → Except String Int)
    (req : Request) :
    (optionallyAuth authorize req = none ↔ req.authorization = none) ∧
    (req.authorization.isSome →
      optionallyAuth authorize req
        = some (extractAndValidateToken authorize req)) := by
  constructor
  · cases h : req.authorization <;> simp [optionallyAuth, getAuthHeader, h]
  · intro h
    simp only [optionallyAuth, getAuthHeader, h, if_pos]

/-- Witness for C10: a request with header value containing a token. -/
theorem optionallyAuth_none_iff_witness :
    optionallyAuth (fun _ => Except.ok 7) (Request.mk (some "Token abc"))
      = some (extractAndValidateToken (fun _ => Except.ok 7)
          (Request.mk (some "Token abc"))) :=
  (optionallyAuth_none_iff (fun _ => Except.ok 7)
    (Request.mk (some "Token abc"))).2 (by decide)
